import Mathlib

/-!
Verification development for the NDB synchronization engine
(pyroute2/ndb/main.py and pyroute2/ndb/interface.py).

The Python source is shallowly embedded: the dispatch loop of
NDB.__dbm__ becomes a step function over an explicit state, exception
raising becomes an explicit outcome value, the weak-reference set
becomes a list of entries carrying a liveness flag, and the SQL store
is a function parameter.
-/

set_option maxRecDepth 4000

/-- An origin / target identifier (node name or UUID). -/
abbrev Origin := String

/-- Exception values that can flow through the dispatch loop, from
main.py: ShutdownException, InvalidateHandlerException, and any other
exception (identified here by a numeric code). -/
inductive Exc
  | shutdown
  | invalidateHandler
  | other (code : Nat)
  deriving DecidableEq, Repr

/-- An event popped from the event queue: either a typed network-state
message (its kind is the Python class used for handler lookup) or an
exception value used as an event. -/
inductive Event
  | msg (kind : Nat)
  | exc (e : Exc)
  deriving DecidableEq, Repr

/-- The handler-lookup key of an event, modelling event.__class__ in
NDB.__dbm__. -/
inductive EvKind
  | m (n : Nat)
  | eShutdown
  | eInvalidate
  | eOther (n : Nat)
  deriving DecidableEq, Repr

/-- event.__class__: the lookup key of an event. -/
def Event.kind : Event → EvKind
  | .msg n => .m n
  | .exc .shutdown => .eShutdown
  | .exc .invalidateHandler => .eInvalidate
  | .exc (.other n) => .eOther n

/-- A handler in the event map: either a registered callable (identified
by a numeric id, its behaviour supplied separately) or the local
default_handler of NDB.__dbm__. -/
inductive Handler
  | user (id : Nat)
  | dflt
  deriving DecidableEq, Repr

/-- The outcome of one handler invocation: normal return, or a raised
exception. -/
inductive HOutcome
  | ok
  | raise (e : Exc)
  deriving DecidableEq, Repr

/-- Behaviour of the registered handlers: maps a handler id, the origin
and the event to the invocation outcome. -/
abbrev Behavior := Nat → Origin → Event → HOutcome

/-- handler(target, event): a user handler follows the supplied
behaviour; default_handler re-raises an exception event and returns
normally (logging a warning) on any other event. -/
def invokeHandler (beh : Behavior) (t : Origin) (ev : Event) : Handler → HOutcome
  | .user i => beh i t ev
  | .dflt =>
    match ev with
    | .exc e => .raise e
    | .msg _ => .ok

/-- The event map self._event_map: kind, ordered handler list. -/
abbrev Registry := List (EvKind × List Handler)

/-- event_map.get(kind): lookup of the handler list of a kind. -/
def regLookup : Registry → EvKind → Option (List Handler)
  | [], _ => none
  | (k, hs) :: rest, k0 => if k = k0 then some hs else regLookup rest k0

/-- In-place mutation of the handler list of a kind (the Python list
object is shared with the dict entry). -/
def regUpdate : Registry → EvKind → List Handler → Registry
  | [], _, _ => []
  | (k, hs) :: rest, k0, hs0 =>
    if k = k0 then (k, hs0) :: rest else (k, hs) :: regUpdate rest k0 hs0

/-- NDB.register_handler: append to the kind's list, creating it if
absent. -/
def register_handler (reg : Registry) (k : EvKind) (h : Handler) : Registry :=
  match regLookup reg k with
  | some hs => regUpdate reg k (hs ++ [h])
  | none => reg ++ [(k, [h])]

/-- list.remove(handler): drop the first occurrence; the caller checks
membership separately (Python raises ValueError when absent, caught by
the surrounding try block). -/
def eraseFirst : List Handler → Handler → List Handler
  | [], _ => []
  | x :: rest, h => if x = h then rest else x :: eraseFirst rest h

/-- Loop control after an event: keep consuming the queue, or return
from __dbm__. -/
inductive Ctl
  | cont
  | halt
  deriving DecidableEq, Repr

/-- Result of the handler for-loop of one event: the mutated handler
list, the invocations made in order, loop control, and the number of
log.error calls. -/
structure SnapRes where
  handlers : List Handler
  trace : List (Handler × HOutcome)
  ctl : Ctl
  errlog : Nat
  deriving DecidableEq, Repr

/-- The inner loop `for handler in tuple(handlers)` of NDB.__dbm__: the
first list is the tuple snapshot still to be visited, the second is the
live (mutable) handler list. An InvalidateHandlerException removes the
handler from the live list (a failed removal is logged); a
ShutdownException returns from the loop at once; any other exception is
logged and the iteration continues. -/
def runSnapshot (beh : Behavior) (t : Origin) (ev : Event) :
    List Handler → List Handler → SnapRes
  | [], cur => ⟨cur, [], .cont, 0⟩
  | h :: rest, cur =>
    match invokeHandler beh t ev h with
    | .ok =>
      let r := runSnapshot beh t ev rest cur
      ⟨r.handlers, (h, .ok) :: r.trace, r.ctl, r.errlog⟩
    | .raise .invalidateHandler =>
      let r := runSnapshot beh t ev rest (eraseFirst cur h)
      ⟨r.handlers, (h, .raise .invalidateHandler) :: r.trace, r.ctl,
        (if h ∈ cur then 0 else 1) + r.errlog⟩
    | .raise .shutdown =>
      ⟨cur, [(h, .raise .shutdown)], .halt, 0⟩
    | .raise (.other c) =>
      let r := runSnapshot beh t ev rest cur
      ⟨r.handlers, (h, .raise (.other c)) :: r.trace, r.ctl, 1 + r.errlog⟩

/-- Result of dispatching one event. -/
structure EvRes where
  registry : Registry
  trace : List (Handler × HOutcome)
  ctl : Ctl
  errlog : Nat
  deriving DecidableEq, Repr

/-- One event of NDB.__dbm__:
`handlers = event_map.get(event.__class__, [default_handler])`,
then the handler for-loop over `tuple(handlers)`. When the kind is
registered the mutated list is written back (it is the same Python list
object); the fallback list is temporary and leaves the map unchanged. -/
def processEvent (beh : Behavior) (reg : Registry) (t : Origin) (ev : Event) : EvRes :=
  match regLookup reg ev.kind with
  | some hs =>
    let r := runSnapshot beh t ev hs hs
    ⟨regUpdate reg ev.kind r.handlers, r.trace, r.ctl, r.errlog⟩
  | none =>
    let r := runSnapshot beh t ev [.dflt] [.dflt]
    ⟨reg, r.trace, r.ctl, r.errlog⟩

/-- An entry of the weak-reference set self._rtnl_objects: the id of the
referent and whether the weak reference still resolves (wr() is not
None). -/
structure WObj where
  id : Nat
  live : Bool
  deriving DecidableEq, Repr

/-- The garbage-collection pass at the end of each event iteration of
NDB.__dbm__: when more than config.gc_timeout has elapsed since
self.gctime, reset the clock and drop every weak reference that no
longer resolves; otherwise leave everything unchanged. Returns the new
gctime and the new object set. -/
def gcSweep (now gctime timeout : Nat) (objs : List WObj) : Nat × List WObj :=
  if timeout < now - gctime then (now, objs.filter (fun o => o.live))
  else (gctime, objs)

/-- State threaded through the dispatch loop of NDB.__dbm__. -/
structure DbmState where
  registry : Registry
  objects : List WObj
  gctime : Nat
  errlog : Nat
  trace : List (Origin × Event × Handler × HOutcome)
  deriving DecidableEq, Repr

/-- One iteration of `for event in events` in NDB.__dbm__: dispatch the
event, then (unless a ShutdownException already returned from the loop)
run the garbage-collection check with the wall-clock value observed
there. -/
def stepEvent (beh : Behavior) (timeout : Nat) (st : DbmState)
    (t : Origin) (ev : Event) (now : Nat) : DbmState × Ctl :=
  let r := processEvent beh st.registry t ev
  match r.ctl with
  | .halt =>
    ({ st with
        registry := r.registry,
        errlog := st.errlog + r.errlog,
        trace := st.trace ++ r.trace.map (fun p => (t, ev, p.1, p.2)) }, .halt)
  | .cont =>
    let g := gcSweep now st.gctime timeout st.objects
    ({ registry := r.registry,
       objects := g.2,
       gctime := g.1,
       errlog := st.errlog + r.errlog,
       trace := st.trace ++ r.trace.map (fun p => (t, ev, p.1, p.2)) }, .cont)

/-- An event paired with the wall-clock value time.time() observed at
its garbage-collection check. -/
abbrev TEvent := Event × Nat

/-- One queue entry (target, events) of self._event_queue. -/
structure Batch where
  target : Origin
  events : List TEvent
  deriving DecidableEq, Repr

/-- The events of one popped batch, in order; a ShutdownException
returns immediately, skipping the remaining events. -/
def runEvents (beh : Behavior) (timeout : Nat) :
    DbmState → Origin → List TEvent → DbmState × Ctl
  | st, _, [] => (st, .cont)
  | st, t, (ev, now) :: rest =>
    match stepEvent beh timeout st t ev now with
    | (st1, .halt) => (st1, .halt)
    | (st1, .cont) => runEvents beh timeout st1 t rest

/-- The dispatch loop `while True: target, events = event_queue.get()`
of NDB.__dbm__, run over the finite list of batches delivered to the
queue. -/
def dbmRun (beh : Behavior) (timeout : Nat) :
    DbmState → List Batch → DbmState × Ctl
  | st, [] => (st, .cont)
  | st, b :: rest =>
    match runEvents beh timeout st b.target b.events with
    | (st1, .halt) => (st1, .halt)
    | (st1, .cont) => dbmRun beh timeout st1 rest

/-- View.__getitem__, registration side: add the weak reference of the
freshly built object to self._rtnl_objects and register one handler for
every entry of the object's event_map. -/
def viewRegister (reg : Registry) (objs : List WObj) (w : WObj)
    (kinds : List EvKind) : Registry × List WObj :=
  (kinds.foldl (fun r k => register_handler r k (.user w.id)) reg,
   objs ++ [w])

/-- Observable state of an NDB instance for NDB.close: whether
self.schema is set, the event queue, the keys of self.nl, and flags
recording the side effects of the close sequence. -/
structure NDBState where
  schemaOpen : Bool
  queue : List (Origin × List Event)
  sources : List Origin
  closedSources : List Origin
  dbmJoined : Bool
  committed : Bool
  storeClosed : Bool
  atexitRegistered : Bool
  deriving DecidableEq, Repr

/-- NDB.close: unregister the atexit hook, then, if self.schema is set,
enqueue one ('localhost', (ShutdownException(),)) entry, close every
source in self.nl, join the dispatch thread, commit and close the
schema. self.schema is never cleared, so the guard stays true on later
calls. -/
def ndbClose (s : NDBState) : NDBState :=
  let s1 := { s with atexitRegistered := false }
  if s1.schemaOpen then
    { s1 with
        queue := s1.queue ++ [("localhost", [Event.exc Exc.shutdown])],
        closedSources := s1.closedSources ++ s1.sources,
        dbmJoined := true,
        committed := true,
        storeClosed := true }
  else s1

/-- A field value in an interface key dict: a string or an integer. -/
inductive KV
  | s (v : String)
  | i (v : Int)
  deriving DecidableEq, Repr

/-- A Python dict of key fields, as an ordered association list. -/
abbrev KDict := List (String × KV)

/-- `name in ret_key` for a key dict. -/
def kdictHas (d : KDict) (k : String) : Bool :=
  d.any (fun p => p.1 == k)

/-- The argument of Interface.complete_key: a dict, an interface name,
or an interface index. -/
inductive IfKey
  | dict (d : KDict)
  | name (v : String)
  | index (v : Int)
  deriving DecidableEq, Repr

/-- The ret_key built by the first half of Interface.complete_key: a
dict argument is taken as is; a string or integer argument becomes
\x7btarget: localhost\x7d plus IFLA_IFNAME or index. -/
def initialKey : IfKey → KDict
  | .dict d => d
  | .name v => [("target", KV.s "localhost"), ("IFLA_IFNAME", KV.s v)]
  | .index v => [("target", KV.s "localhost"), ("index", KV.i v)]

/-- Interface.complete_key. The store is a function from the fetched
column list and the condition dict to an optional row (fetchone); it is
consulted at most once, under the db lock. Returns the completed key
(none when the single lookup finds no row: the zip over None raises)
and the number of store lookups issued. -/
def complete_key (kspec : List String)
    (db : List String → KDict → Option (List KV)) (key : IfKey) :
    Option KDict × Nat :=
  let ret := initialKey key
  let fetch := kspec.filter (fun n => !(kdictHas ret n))
  if fetch.isEmpty then (some ret, 0)
  else
    match db fetch ret with
    | none => (none, 1)
    | some row => (some (ret ++ List.zip fetch row), 1)

/-- The field map of an Interface object, restricted to the fields the
derived-state invariant concerns. -/
structure IfState where
  flags : Nat
  state : String
  deriving DecidableEq, Repr

/-- Modelled from the spec: the base-class load (RTNL_Object.load_sql /
RTNL_Object.load_rtnl, in rtnl_object.py, not part of the reviewed
source) populates the field map from the row or message, including the
flags field. -/
def baseLoad (flags : Nat) (s : IfState) : IfState :=
  { s with flags := flags }

/-- Interface.load_sql: run the base load, then recompute the state
field from bit 0 of flags. -/
def load_sql (flags : Nat) (s : IfState) : IfState :=
  let s1 := baseLoad flags s
  { s1 with state := if s1.flags &&& 1 ≠ 0 then "up" else "down" }

/-- Interface.load_rtnl: run the base load, then recompute the state
field from bit 0 of flags, exactly as load_sql does. -/
def load_rtnl (flags : Nat) (s : IfState) : IfState :=
  let s1 := baseLoad flags s
  { s1 with state := if s1.flags &&& 1 ≠ 0 then "up" else "down" }

/-- A field of a dumped record as seen by View._csv: an integer, NULL,
or any other value (rendered via its string form). -/
inductive CsvField
  | num (n : Int)
  | null
  | str (v : String)
  deriving DecidableEq, Repr

/-- The single-quote character, written by code point. -/
def sglq : String := String.singleton (Char.ofNat 39)

/-- Rendering of one field in View._csv: integers in decimal without
quotes, None as the empty string, anything else wrapped in single
quotes. -/
def renderField : CsvField → String
  | .num n => toString n
  | .null => ""
  | .str v => sglq ++ v ++ sglq

/-- One output line of View._csv: the rendered fields of one record
joined by commas. -/
def csvLine (r : List CsvField) : String :=
  String.intercalate "," (r.map renderField)

/-- View._csv over a full dump: one text line per record. -/
def csvRender (records : List (List CsvField)) : List String :=
  records.map csvLine

/-- A netlink message as inspected by the Source thread routine: the
header's error field is None or carries an error code. -/
structure Msg where
  errorCode : Option Nat
  deriving DecidableEq, Repr

/-- A batch received from the channel (a tuple of messages). -/
abbrev MBatch := List Msg

/-- The disconnect test of the Source thread routine:
msg[0]['header']['error'] is truthy and its code equals 104. -/
def isDisconnect (b : MBatch) : Bool :=
  match b.head? with
  | some m =>
    match m.errorCode with
    | some c => c == 104
    | none => false
  | none => false

/-- An entry put on the event queue by a Source: an event batch, or the
ready Event object supplied at construction. -/
inductive QItem
  | batch (b : MBatch)
  | ready
  deriving DecidableEq, Repr

/-- The Source thread routine t: forward every batch received from the
channel into the event queue tagged with the target, returning (without
enqueueing) on the first batch whose leading message carries error code
104. The channel is modelled as the finite list of batches it yields. -/
def sourceLoop (target : Origin) : List MBatch → List (Origin × QItem)
  | [] => []
  | b :: rest =>
    if isDisconnect b then []
    else (target, QItem.batch b) :: sourceLoop target rest

/-- The four initial full-state dumps fetched synchronously by
Source.start: get_links, get_addr, get_neighbours, get_routes. -/
structure StartData where
  links : MBatch
  addrs : MBatch
  neighs : MBatch
  routes : MBatch
  deriving DecidableEq, Repr

/-- Source.start: enqueue the four initial dumps in order, then the
ready signal when one was supplied at construction, then everything the
background thread routine forwards from the channel. The returned list
is the sequence of queue entries contributed by this source. -/
def sourceStart (target : Origin) (d : StartData) (hasReady : Bool)
    (chan : List MBatch) : List (Origin × QItem) :=
  [(target, QItem.batch d.links), (target, QItem.batch d.addrs),
   (target, QItem.batch d.neighs), (target, QItem.batch d.routes)]
  ++ (if hasReady then [(target, QItem.ready)] else [])
  ++ sourceLoop target chan

/-- View.__setitem__: unconditionally NotImplementedError. -/
def viewSetitem {α β : Type} (_key : α) (_value : β) : Except String Unit :=
  .error "NotImplementedError"

/-- View.__delitem__: unconditionally NotImplementedError. -/
def viewDelitem {α : Type} (_key : α) : Except String Unit :=
  .error "NotImplementedError"

/-- View.keys: unconditionally NotImplementedError. -/
def viewKeys : Except String Unit :=
  .error "NotImplementedError"

/-- View.items: unconditionally NotImplementedError. -/
def viewItems : Except String Unit :=
  .error "NotImplementedError"

/-- View.values: unconditionally NotImplementedError. -/
def viewValues : Except String Unit :=
  .error "NotImplementedError"

/-- A behaviour with no registered handlers acting: every user handler
returns normally. Used for concrete evaluation. -/
def behOk : Behavior := fun _ _ _ => HOutcome.ok

/-- An empty dispatch state with an empty event map, as right after
NDB.__dbm__ starts (before any registration), for concrete
evaluation. -/
def st0 : DbmState :=
  { registry := [], objects := [], gctime := 0, errlog := 0, trace := [] }

/-- A concrete event queue: an unhandled error-condition event from
localhost, then a well-formed (unhandled) message event from another
origin. -/
def q0 : List Batch :=
  [⟨"localhost", [(Event.exc (Exc.other 42), 1)]⟩,
   ⟨"remote", [(Event.msg 5, 2)]⟩]

/-- A concrete NDB state with one attached source named remote and an
open schema. -/
def s0c : NDBState :=
  { schemaOpen := true, queue := [], sources := ["remote"],
    closedSources := [], dbmJoined := false, committed := false,
    storeClosed := false, atexitRegistered := true }

/-- A concrete behaviour for exercising self-deregistration: handler 1
raises InvalidateHandlerException, every other handler returns
normally. -/
def behW : Behavior := fun i _ _ =>
  if i = 1 then HOutcome.raise Exc.invalidateHandler else HOutcome.ok

/-- A concrete event map with three handlers registered for message
kind 1. -/
def regW : Registry :=
  [(EvKind.m 1, [Handler.user 0, Handler.user 1, Handler.user 2])]

/-- A concrete behaviour where handler 7 fails with an ordinary
exception. -/
def behFail : Behavior := fun i _ _ =>
  if i = 7 then HOutcome.raise (Exc.other 3) else HOutcome.ok

/-- A concrete event map with a failing handler and a healthy handler
registered for message kind 2. -/
def regF : Registry :=
  [(EvKind.m 2, [Handler.user 7, Handler.user 8])]

/-- A concrete dispatch state whose event map is regF. -/
def stF : DbmState :=
  { registry := regF, objects := [], gctime := 0, errlog := 0, trace := [] }

/-! Helper lemmas about the dispatch loop embedding. -/

theorem regLookup_regUpdate (reg : Registry) (k : EvKind)
    (hs hs0 : List Handler) (h : regLookup reg k = some hs) :
    regLookup (regUpdate reg k hs0) k = some hs0 := by
  induction reg with
  | nil => simp [regLookup] at h
  | cons p rest ih =>
    obtain ⟨pk, phs⟩ := p
    by_cases hk : pk = k
    · simp [regUpdate, regLookup, hk]
    · simp only [regLookup, regUpdate, if_neg hk] at h ⊢
      exact ih h

theorem eraseFirst_append (pre post : List Handler) (h : Handler)
    (hnp : h ∉ pre) :
    eraseFirst (pre ++ h :: post) h = pre ++ post := by
  induction pre with
  | nil => simp [eraseFirst]
  | cons x xs ih =>
    have hx : ¬ x = h := by
      intro e
      exact hnp (by simp [e])
    simp only [List.cons_append, eraseFirst, if_neg hx, List.append_eq]
    rw [ih (fun m => hnp (List.mem_cons_of_mem _ m))]

theorem runSnapshot_all_ok (beh : Behavior) (t : Origin) (ev : Event)
    (hs cur : List Handler)
    (hok : ∀ p ∈ hs, invokeHandler beh t ev p = HOutcome.ok) :
    runSnapshot beh t ev hs cur =
      ⟨cur, hs.map (fun p => (p, HOutcome.ok)), Ctl.cont, 0⟩ := by
  induction hs with
  | nil => simp [runSnapshot]
  | cons h rest ih =>
    have hh := hok h (by simp)
    simp [runSnapshot, hh, ih (fun p hp => hok p (by simp [hp]))]

theorem runSnapshot_ok_front (beh : Behavior) (t : Origin) (ev : Event)
    (pre rest cur : List Handler)
    (hpre : ∀ p ∈ pre, invokeHandler beh t ev p = HOutcome.ok) :
    runSnapshot beh t ev (pre ++ rest) cur =
      ⟨(runSnapshot beh t ev rest cur).handlers,
       pre.map (fun p => (p, HOutcome.ok)) ++ (runSnapshot beh t ev rest cur).trace,
       (runSnapshot beh t ev rest cur).ctl,
       (runSnapshot beh t ev rest cur).errlog⟩ := by
  induction pre with
  | nil => simp
  | cons p ps ih =>
    have hp := hpre p (by simp)
    simp [runSnapshot, hp, ih (fun x hx => hpre x (by simp [hx]))]

theorem dbmRun_cons_single (beh : Behavior) (timeout : Nat) (st : DbmState)
    (t : Origin) (ev : Event) (now : Nat) (rest : List Batch)
    (hc : (processEvent beh st.registry t ev).ctl = Ctl.cont) :
    dbmRun beh timeout st (⟨t, [(ev, now)]⟩ :: rest)
      = dbmRun beh timeout (stepEvent beh timeout st t ev now).1 rest := by
  have h2 : (stepEvent beh timeout st t ev now).2 = Ctl.cont := by
    simp [stepEvent, hc]
  rcases hse : stepEvent beh timeout st t ev now with ⟨st1, c⟩
  rw [hse] at h2
  simp only at h2
  subst h2
  simp [dbmRun, runEvents, hse]

/-- C1: in the dispatch loop, a handler that raises the
invalidate-handler signal is removed (exactly that handler) from the
kind's handler list, the remaining handlers of the kind still run for
the same event, and the loop goes on without logging an error. -/
theorem c1_invalidate_removes_exactly_handler
    (beh : Behavior) (t : Origin) (ev : Event) (reg : Registry)
    (pre post : List Handler) (h : Handler)
    (hlook : regLookup reg ev.kind = some (pre ++ h :: post))
    (hpre : ∀ p ∈ pre, invokeHandler beh t ev p = HOutcome.ok)
    (hinv : invokeHandler beh t ev h = HOutcome.raise Exc.invalidateHandler)
    (hpost : ∀ p ∈ post, invokeHandler beh t ev p = HOutcome.ok)
    (hnp : h ∉ pre) :
    regLookup (processEvent beh reg t ev).registry ev.kind = some (pre ++ post)
    ∧ (processEvent beh reg t ev).trace
        = pre.map (fun p => (p, HOutcome.ok))
          ++ (h, HOutcome.raise Exc.invalidateHandler)
          :: post.map (fun p => (p, HOutcome.ok))
    ∧ (processEvent beh reg t ev).ctl = Ctl.cont
    ∧ (processEvent beh reg t ev).errlog = 0 := by
  have hmem : h ∈ pre ++ h :: post := by simp
  have htail : runSnapshot beh t ev (h :: post) (pre ++ h :: post)
      = ⟨pre ++ post,
         (h, HOutcome.raise Exc.invalidateHandler)
           :: post.map (fun p => (p, HOutcome.ok)),
         Ctl.cont, 0⟩ := by
    simp [runSnapshot, hinv, eraseFirst_append pre post h hnp,
          runSnapshot_all_ok beh t ev post (pre ++ post) hpost, hmem]
  have hsnap : runSnapshot beh t ev (pre ++ h :: post) (pre ++ h :: post)
      = ⟨pre ++ post,
         pre.map (fun p => (p, HOutcome.ok))
           ++ (h, HOutcome.raise Exc.invalidateHandler)
           :: post.map (fun p => (p, HOutcome.ok)),
         Ctl.cont, 0⟩ := by
    rw [runSnapshot_ok_front beh t ev pre (h :: post) (pre ++ h :: post) hpre,
        htail]
  have hpe : processEvent beh reg t ev
      = ⟨regUpdate reg ev.kind (pre ++ post),
         pre.map (fun p => (p, HOutcome.ok))
           ++ (h, HOutcome.raise Exc.invalidateHandler)
           :: post.map (fun p => (p, HOutcome.ok)),
         Ctl.cont, 0⟩ := by
    simp [processEvent, hlook, hsnap]
  rw [hpe]
  exact ⟨regLookup_regUpdate reg ev.kind (pre ++ h :: post) (pre ++ post) hlook,
         rfl, rfl, rfl⟩

/-- Witness for C1 at a concrete input: with handlers 0, 1, 2 registered
for message kind 1 and handler 1 invalidating itself, exactly handler 1
is removed, all three invocations happen, and no error is logged. -/
theorem c1_witness :
    regLookup (processEvent behW regW "localhost" (Event.msg 1)).registry
        (Event.msg 1).kind = some [Handler.user 0, Handler.user 2]
    ∧ (processEvent behW regW "localhost" (Event.msg 1)).trace
        = [(Handler.user 0, HOutcome.ok),
           (Handler.user 1, HOutcome.raise Exc.invalidateHandler),
           (Handler.user 2, HOutcome.ok)]
    ∧ (processEvent behW regW "localhost" (Event.msg 1)).ctl = Ctl.cont
    ∧ (processEvent behW regW "localhost" (Event.msg 1)).errlog = 0 := by
  have h := c1_invalidate_removes_exactly_handler behW "localhost"
    (Event.msg 1) regW [Handler.user 0] [Handler.user 2] (Handler.user 1)
    (by decide) (by decide) (by decide) (by decide) (by decide)
  exact ⟨h.1, h.2.1, h.2.2.1, h.2.2.2⟩

/-- C2 counterexample: an error-condition event (an exception value
with no registered handler) does NOT terminate the dispatch loop. On
the concrete queue q0 -- an unhandled ordinary exception event from
localhost followed by a message event from another origin -- the loop
finishes the whole queue without halting, logs one error, and still
dispatches the later event. -/
theorem c2_counterexample :
    (dbmRun behOk 1000 st0 q0).2 = Ctl.cont
    ∧ (dbmRun behOk 1000 st0 q0).1.errlog = 1
    ∧ ("remote", Event.msg 5, Handler.dflt, HOutcome.ok)
        ∈ (dbmRun behOk 1000 st0 q0).1.trace := by
  refine ⟨rfl, rfl, ?_⟩
  decide

/-- C2 as amended: when an error-condition event has no registered
handler, the default handler re-raises it, but the dispatch loop
catches the exception, logs it and continues with the rest of the
queue; only the shutdown signal terminates the loop through this
path. -/
theorem c2_amended (beh : Behavior) (st : DbmState) (t : Origin)
    (c now timeout : Nat) (rest : List Batch)
    (hoth : regLookup st.registry (EvKind.eOther c) = none)
    (hsh : regLookup st.registry EvKind.eShutdown = none) :
    (processEvent beh st.registry t (Event.exc (Exc.other c))).ctl = Ctl.cont
    ∧ (processEvent beh st.registry t (Event.exc (Exc.other c))).errlog = 1
    ∧ (processEvent beh st.registry t (Event.exc (Exc.other c))).registry
        = st.registry
    ∧ dbmRun beh timeout st (⟨t, [(Event.exc (Exc.other c), now)]⟩ :: rest)
        = dbmRun beh timeout
            (stepEvent beh timeout st t (Event.exc (Exc.other c)) now).1 rest
    ∧ (processEvent beh st.registry t (Event.exc Exc.shutdown)).ctl
        = Ctl.halt := by
  have h1 : processEvent beh st.registry t (Event.exc (Exc.other c))
      = ⟨st.registry,
         [(Handler.dflt, HOutcome.raise (Exc.other c))], Ctl.cont, 1⟩ := by
    simp [processEvent, Event.kind, hoth, runSnapshot, invokeHandler]
  have h2 : processEvent beh st.registry t (Event.exc Exc.shutdown)
      = ⟨st.registry,
         [(Handler.dflt, HOutcome.raise Exc.shutdown)], Ctl.halt, 0⟩ := by
    simp [processEvent, Event.kind, hsh, runSnapshot, invokeHandler]
  refine ⟨by rw [h1], by rw [h1], by rw [h1], ?_, by rw [h2]⟩
  exact dbmRun_cons_single beh timeout st t (Event.exc (Exc.other c)) now rest
    (by rw [h1])

/-- Witness for C2's amended statement at a concrete input: the empty
event map never handles kind 9, the unhandled error event leaves the
loop running with one logged error, and an unhandled shutdown event
halts it. -/
theorem c2_amended_witness :
    (processEvent behOk st0.registry "localhost"
        (Event.exc (Exc.other 9))).ctl = Ctl.cont
    ∧ (processEvent behOk st0.registry "localhost"
        (Event.exc (Exc.other 9))).errlog = 1
    ∧ (processEvent behOk st0.registry "localhost"
        (Event.exc Exc.shutdown)).ctl = Ctl.halt := by
  have h := c2_amended behOk st0 "localhost" 9 0 1000 []
    (by decide) (by decide)
  exact ⟨h.1, h.2.1, h.2.2.2.2⟩

theorem runSnapshot_other_mem_errlog (beh : Behavior) (t : Origin)
    (ev : Event) (hs : List Handler) (h0 : Handler) (c : Nat) :
    ∀ cur : List Handler,
      (h0, HOutcome.raise (Exc.other c)) ∈ (runSnapshot beh t ev hs cur).trace →
      1 ≤ (runSnapshot beh t ev hs cur).errlog := by
  induction hs with
  | nil =>
    intro cur hmem
    simp [runSnapshot] at hmem
  | cons h rest ih =>
    intro cur hmem
    rcases hout : invokeHandler beh t ev h with _ | e
    · simp only [runSnapshot, hout] at hmem ⊢
      rcases List.mem_cons.mp hmem with hhead | htail
      · exact absurd (congrArg Prod.snd hhead).symm (by simp)
      · exact ih cur htail
    · cases e with
      | shutdown =>
        simp only [runSnapshot, hout] at hmem
        rcases List.mem_cons.mp hmem with hhead | htail
        · exact absurd (congrArg Prod.snd hhead).symm (by simp)
        · simp at htail
      | invalidateHandler =>
        simp only [runSnapshot, hout] at hmem ⊢
        rcases List.mem_cons.mp hmem with hhead | htail
        · exact absurd (congrArg Prod.snd hhead).symm (by simp)
        · exact le_trans (ih (eraseFirst cur h) htail) (Nat.le_add_left _ _)
      | other c2 =>
        simp only [runSnapshot, hout]
        exact Nat.le_add_right 1 _

theorem runSnapshot_no_shutdown_cont (beh : Behavior) (t : Origin)
    (ev : Event) (hs : List Handler) :
    ∀ cur : List Handler,
      (∀ p ∈ (runSnapshot beh t ev hs cur).trace,
          p.2 ≠ HOutcome.raise Exc.shutdown) →
      (runSnapshot beh t ev hs cur).ctl = Ctl.cont := by
  induction hs with
  | nil =>
    intro cur _
    simp [runSnapshot]
  | cons h rest ih =>
    intro cur hns
    rcases hout : invokeHandler beh t ev h with _ | e
    · simp only [runSnapshot, hout] at hns ⊢
      exact ih cur (fun p hp => hns p (List.mem_cons_of_mem _ hp))
    · cases e with
      | shutdown =>
        simp only [runSnapshot, hout] at hns
        exact absurd rfl (hns (h, HOutcome.raise Exc.shutdown) (by simp))
      | invalidateHandler =>
        simp only [runSnapshot, hout] at hns ⊢
        exact ih (eraseFirst cur h) (fun p hp => hns p (List.mem_cons_of_mem _ hp))
      | other c2 =>
        simp only [runSnapshot, hout] at hns ⊢
        exact ih cur (fun p hp => hns p (List.mem_cons_of_mem _ hp))

theorem processEvent_other_mem_errlog (beh : Behavior) (reg : Registry)
    (t : Origin) (ev : Event) (h0 : Handler) (c : Nat)
    (hmem : (h0, HOutcome.raise (Exc.other c))
        ∈ (processEvent beh reg t ev).trace) :
    1 ≤ (processEvent beh reg t ev).errlog := by
  unfold processEvent at hmem ⊢
  cases hl : regLookup reg ev.kind with
  | some hs =>
    rw [hl] at hmem
    exact runSnapshot_other_mem_errlog beh t ev hs h0 c hs hmem
  | none =>
    rw [hl] at hmem
    exact runSnapshot_other_mem_errlog beh t ev [Handler.dflt] h0 c
      [Handler.dflt] hmem

theorem processEvent_no_shutdown_cont (beh : Behavior) (reg : Registry)
    (t : Origin) (ev : Event)
    (hns : ∀ p ∈ (processEvent beh reg t ev).trace,
        p.2 ≠ HOutcome.raise Exc.shutdown) :
    (processEvent beh reg t ev).ctl = Ctl.cont := by
  unfold processEvent at hns ⊢
  cases hl : regLookup reg ev.kind with
  | some hs =>
    rw [hl] at hns
    exact runSnapshot_no_shutdown_cont beh t ev hs hs hns
  | none =>
    rw [hl] at hns
    exact runSnapshot_no_shutdown_cont beh t ev [Handler.dflt]
      [Handler.dflt] hns

/-- C3: when a handler fails with an exception other than the invalidate
and shutdown control signals, the dispatch loop logs the failure and
does not halt; the loop then continues into the remaining queue, so a
later well-formed event (from any origin) is dispatched exactly as it
would have been. -/
theorem c3_other_failures_logged_loop_continues
    (beh : Behavior) (timeout : Nat) (st : DbmState) (t : Origin)
    (ev : Event) (now : Nat) (rest : List Batch) (h0 : Handler) (c : Nat)
    (hnshut : ∀ p ∈ (processEvent beh st.registry t ev).trace,
        p.2 ≠ HOutcome.raise Exc.shutdown)
    (hfail : (h0, HOutcome.raise (Exc.other c))
        ∈ (processEvent beh st.registry t ev).trace) :
    (processEvent beh st.registry t ev).ctl = Ctl.cont
    ∧ 1 ≤ (processEvent beh st.registry t ev).errlog
    ∧ dbmRun beh timeout st (⟨t, [(ev, now)]⟩ :: rest)
        = dbmRun beh timeout (stepEvent beh timeout st t ev now).1 rest := by
  have hc := processEvent_no_shutdown_cont beh st.registry t ev hnshut
  exact ⟨hc, processEvent_other_mem_errlog beh st.registry t ev h0 c hfail,
         dbmRun_cons_single beh timeout st t ev now rest hc⟩

/-- Witness for C3 at a concrete input: with the failing handler 7 and
the healthy handler 8 registered for kind 2, the event logs one error,
the loop does not halt, and it proceeds into the rest of the queue. -/
theorem c3_witness :
    (processEvent behFail stF.registry "localhost" (Event.msg 2)).ctl
        = Ctl.cont
    ∧ 1 ≤ (processEvent behFail stF.registry "localhost" (Event.msg 2)).errlog
    ∧ dbmRun behFail 1000 stF [⟨"localhost", [(Event.msg 2, 1)]⟩,
          ⟨"remote", [(Event.msg 5, 2)]⟩]
        = dbmRun behFail 1000
            (stepEvent behFail 1000 stF "localhost" (Event.msg 2) 1).1
            [⟨"remote", [(Event.msg 5, 2)]⟩] := by
  exact c3_other_failures_logged_loop_continues behFail 1000 stF "localhost"
    (Event.msg 2) 1 [⟨"remote", [(Event.msg 5, 2)]⟩] (Handler.user 7) 3
    (by decide) (by decide)

/-- C4: once more than the configured interval has elapsed since the
last sweep, the garbage-collection pass of the dispatch loop drops
exactly the registrations whose weak reference no longer resolves:
every dead entry is absent afterwards, every live entry is kept (an
entry is never pruned before its object becomes unreachable), the sweep
clock is reset, and when the interval has not elapsed nothing is
touched. -/
theorem c4_gc_sweep_discards_dead_keeps_live
    (now gctime timeout : Nat) (objs : List WObj) :
    (timeout < now - gctime →
        (gcSweep now gctime timeout objs).2 = objs.filter (fun o => o.live)
        ∧ (∀ o ∈ objs, o.live = false →
            o ∉ (gcSweep now gctime timeout objs).2)
        ∧ (∀ o ∈ objs, o.live = true →
            o ∈ (gcSweep now gctime timeout objs).2)
        ∧ (gcSweep now gctime timeout objs).1 = now)
    ∧ (¬ timeout < now - gctime →
        (gcSweep now gctime timeout objs).2 = objs)
    ∧ (∀ o ∈ (gcSweep now gctime timeout objs).2, o ∈ objs) := by
  refine ⟨fun hlt => ⟨?_, ?_, ?_, ?_⟩, fun hlt => ?_, fun o hmem => ?_⟩
  · simp [gcSweep, hlt]
  · intro o ho hdead
    simp [gcSweep, hlt, List.mem_filter, hdead]
  · intro o ho hlive
    simp [gcSweep, hlt, List.mem_filter, ho, hlive]
  · simp [gcSweep, hlt]
  · simp [gcSweep, hlt]
  · unfold gcSweep at hmem
    by_cases hlt : timeout < now - gctime
    · rw [if_pos hlt] at hmem
      exact (List.mem_filter.mp hmem).1
    · rw [if_neg hlt] at hmem
      exact hmem

/-- Witness for C4 at a concrete input: with a 5-unit interval, last
sweep at 0 and current time 10, the sweep runs; the dead entry 1 is
discarded and the live entry 2 survives. -/
theorem c4_witness :
    (gcSweep 10 0 5 [⟨1, false⟩, ⟨2, true⟩]).2 = [⟨2, true⟩]
    ∧ (⟨1, false⟩ : WObj) ∉ (gcSweep 10 0 5 [⟨1, false⟩, ⟨2, true⟩]).2
    ∧ (⟨2, true⟩ : WObj) ∈ (gcSweep 10 0 5 [⟨1, false⟩, ⟨2, true⟩]).2 := by
  have h := c4_gc_sweep_discards_dead_keeps_live 10 0 5 [⟨1, false⟩, ⟨2, true⟩]
  have h1 := h.1 (by decide)
  exact ⟨h1.1.trans (by decide),
         h1.2.1 ⟨1, false⟩ (by decide) rfl,
         h1.2.2.1 ⟨2, true⟩ (by decide) rfl⟩

/-- C5 counterexample: on the concrete state s0c with the single
attached origin remote, NDB.close enqueues no shutdown signal tagged
remote (only one tagged localhost), and a second close is not a no-op:
it changes the state again by enqueueing another shutdown signal. -/
theorem c5_counterexample :
    ("remote" ∈ s0c.sources
      ∧ ∀ item ∈ (ndbClose s0c).queue, item.1 ≠ "remote")
    ∧ ndbClose (ndbClose s0c) ≠ ndbClose s0c := by
  decide

/-- C5 as amended: close enqueues exactly one shutdown control signal,
tagged localhost regardless of the attached origins, closes every
attached SourceReader, joins the dispatch thread, commits and closes
the Store, and unregisters the atexit hook; a second invocation repeats
the sequence (enqueueing another shutdown signal) instead of being a
no-op. -/
theorem c5_close_enqueues_single_localhost_shutdown
    (s : NDBState) (hopen : s.schemaOpen = true) :
    (ndbClose s).queue = s.queue ++ [("localhost", [Event.exc Exc.shutdown])]
    ∧ (ndbClose s).closedSources = s.closedSources ++ s.sources
    ∧ (ndbClose s).dbmJoined = true
    ∧ (ndbClose s).committed = true
    ∧ (ndbClose s).storeClosed = true
    ∧ (ndbClose s).atexitRegistered = false
    ∧ (ndbClose (ndbClose s)).queue
        = s.queue ++ [("localhost", [Event.exc Exc.shutdown]),
                      ("localhost", [Event.exc Exc.shutdown])] := by
  simp [ndbClose, hopen]

/-- Witness for C5's amended statement at the concrete state s0c. -/
theorem c5_witness :
    (ndbClose s0c).queue = [("localhost", [Event.exc Exc.shutdown])]
    ∧ (ndbClose s0c).closedSources = ["remote"]
    ∧ (ndbClose s0c).atexitRegistered = false := by
  have h := c5_close_enqueues_single_localhost_shutdown s0c (by decide)
  exact ⟨h.1, h.2.1, h.2.2.2.2.2.1⟩

/-- C6: for an incomplete key, Interface.complete_key issues exactly one
store lookup to fill the missing key fields from the provided fields,
and when that lookup matches no row the call fails (no zero-valued key
object is produced). -/
theorem c6_complete_key_single_lookup_not_found
    (kspec : List String) (db : List String → KDict → Option (List KV))
    (key : IfKey)
    (hinc : kspec.filter (fun n => !(kdictHas (initialKey key) n)) ≠ []) :
    (complete_key kspec db key).2 = 1
    ∧ (db (kspec.filter (fun n => !(kdictHas (initialKey key) n)))
          (initialKey key) = none →
        (complete_key kspec db key).1 = none) := by
  cases hfl : kspec.filter (fun n => !(kdictHas (initialKey key) n)) with
  | nil => exact absurd hfl hinc
  | cons a l =>
    cases hdb : db (a :: l) (initialKey key) with
    | none => simp [complete_key, hfl, hdb]
    | some row => simp [complete_key, hfl, hdb]

/-- Witness for C6 at a concrete input: looking up an interface by name
eth0 with key fields target and index against an empty store issues one
lookup and fails. -/
theorem c6_witness :
    (complete_key ["target", "index"] (fun _ _ => none)
        (IfKey.name "eth0")).1 = none
    ∧ (complete_key ["target", "index"] (fun _ _ => none)
        (IfKey.name "eth0")).2 = 1 := by
  have h := c6_complete_key_single_lookup_not_found ["target", "index"]
    (fun _ _ => none) (IfKey.name "eth0") (by decide)
  exact ⟨h.2 rfl, h.1⟩

/-- C7: loading an interface from a store row and from a live message
recompute the derived state field identically: after either load, the
state is up exactly when bit 0 of flags is set and down otherwise,
regardless of the state held before the load. -/
theorem c7_state_recomputed_identically (flags : Nat) (s1 s2 : IfState) :
    (load_sql flags s1).state = (load_rtnl flags s2).state
    ∧ ((load_sql flags s1).state = "up" ↔ flags &&& 1 = 1)
    ∧ ((load_sql flags s1).state = "down" ↔ flags &&& 1 = 0)
    ∧ ((load_rtnl flags s2).state = "up" ↔ flags &&& 1 = 1)
    ∧ (load_sql flags s1).flags = flags
    ∧ (load_rtnl flags s2).flags = flags := by
  have hmod : flags &&& 1 = flags % 2 := Nat.and_one_is_mod flags
  rcases Nat.mod_two_eq_zero_or_one flags with h | h
  · simp [load_sql, load_rtnl, baseLoad, hmod, h]
  · simp [load_sql, load_rtnl, baseLoad, hmod, h]

/-- C8: the csv rendering yields exactly one text line per record, each
line being the record's fields joined by commas, where integers render
as bare decimals, null renders as the empty string, and every other
field is wrapped in single quotes. -/
theorem c8_csv_render_shape (records : List (List CsvField)) :
    (csvRender records).length = records.length
    ∧ (∀ i : Nat, (csvRender records)[i]? = (records[i]?).map csvLine)
    ∧ (∀ r : List CsvField,
        csvLine r = String.intercalate "," (r.map renderField))
    ∧ (∀ n : Int, renderField (CsvField.num n) = toString n)
    ∧ renderField CsvField.null = ""
    ∧ (∀ v : String, renderField (CsvField.str v) = sglq ++ v ++ sglq) :=
  ⟨by simp [csvRender],
   fun i => List.getElem?_map csvLine records i,
   fun _ => rfl, fun _ => rfl, rfl, fun _ => rfl⟩

theorem sourceLoop_until_disconnect (target : Origin) (pre : List MBatch)
    (dB : MBatch) (post : List MBatch)
    (hpre : ∀ b ∈ pre, isDisconnect b = false)
    (hd : isDisconnect dB = true) :
    sourceLoop target (pre ++ dB :: post)
      = pre.map (fun b => (target, QItem.batch b)) := by
  induction pre with
  | nil => simp [sourceLoop, hd]
  | cons b bs ih =>
    have hb := hpre b (by simp)
    simp [sourceLoop, hb, ih (fun x hx => hpre x (by simp [hx]))]

/-- C9: Source.start enqueues the four initial full-state batches
(links, addresses, neighbours, routes) tagged with its origin, then the
ready signal exactly once when one was supplied, and its loop then
forwards every received batch tagged with its origin until the first
batch whose leading message carries error code 104, which terminates
the loop without enqueueing that batch or anything after it. (Batches
before the disconnect are assumed nonempty: the Python loop indexes
msg[0] and would crash on an empty tuple.) -/
theorem c9_source_start_enqueues_until_disconnect
    (target : Origin) (d : StartData) (hasReady : Bool)
    (pre : List MBatch) (dB : MBatch) (post : List MBatch)
    (hpre : ∀ b ∈ pre, isDisconnect b = false)
    (_hne : ∀ b ∈ pre, b ≠ [])
    (hd : isDisconnect dB = true) :
    sourceStart target d hasReady (pre ++ dB :: post)
      = [(target, QItem.batch d.links), (target, QItem.batch d.addrs),
         (target, QItem.batch d.neighs), (target, QItem.batch d.routes)]
        ++ (if hasReady then [(target, QItem.ready)] else [])
        ++ pre.map (fun b => (target, QItem.batch b)) := by
  unfold sourceStart
  rw [sourceLoop_until_disconnect target pre dB post hpre hd]

/-- Witness for C9 at a concrete input: one healthy batch is forwarded,
then a batch with error code 104 stops the loop, and the batch after it
is never enqueued. -/
theorem c9_witness :
    sourceStart "h1" ⟨[⟨none⟩], [⟨none⟩], [⟨none⟩], [⟨none⟩]⟩ true
        ([[⟨none⟩]] ++ [⟨some 104⟩] :: [[⟨none⟩]])
      = [("h1", QItem.batch [⟨none⟩]), ("h1", QItem.batch [⟨none⟩]),
         ("h1", QItem.batch [⟨none⟩]), ("h1", QItem.batch [⟨none⟩]),
         ("h1", QItem.ready), ("h1", QItem.batch [⟨none⟩])] := by
  have h := c9_source_start_enqueues_until_disconnect "h1"
    ⟨[⟨none⟩], [⟨none⟩], [⟨none⟩], [⟨none⟩]⟩ true
    [[⟨none⟩]] [⟨some 104⟩] [[⟨none⟩]]
    (by decide) (by decide) (by decide)
  exact h.trans (by decide)

/-- C10: the dict-style mutation and enumeration operations of a View --
item assignment, item deletion, keys, items, values -- unconditionally
raise NotImplementedError. -/
theorem c10_view_dict_ops_not_implemented {α β : Type} (key : α) (value : β) :
    viewSetitem key value = Except.error "NotImplementedError"
    ∧ viewDelitem key = Except.error "NotImplementedError"
    ∧ viewKeys = Except.error "NotImplementedError"
    ∧ viewItems = Except.error "NotImplementedError"
    ∧ viewValues = Except.error "NotImplementedError" :=
  ⟨rfl, rfl, rfl, rfl, rfl⟩
